import Mathlib

/-!
Shallow embedding of the abstract-domain scaffolding of
`libredex/AbstractDomain.h` and of the liveness fixpoint scenario of
`test/integ/MonotonicFixpointTest.cpp`.

The C++ code is generic (CRTP) over an `AbstractValue` implementation `V`.
We model an implementation as a record of operations `AbstractValueOps V`.
C++ methods mutate `this`; the embedding threads state explicitly: a
value-level mutating operation returns the pair (returned `Kind`, new value
of `this`), and a scaffolding-level binary operation returns the pair
(new self, new other).  The `other` argument is taken by const reference in
the C++ and never written through, so the embedding returns it unchanged in
every branch; keeping it in the result type lets frame properties be stated.

"Holds no representation resources" is not observable from the C++
interface; the model carries an extra observer `cleared : V → Bool` along
with the interface, and properties of a well-behaved implementation
(e.g. that `clear` establishes `cleared`) appear as explicit hypotheses.
-/

namespace Redex

/-- `AbstractValue::Kind` from AbstractDomain.h: the three-valued tag
`{Bottom, Value, Top}`. -/
inductive AbstractValueKind where
  | Bottom
  | Value
  | Top
deriving DecidableEq, Repr

/-- The `AbstractValue<Derived>` interface of AbstractDomain.h, as a record
of operations over the carrier `V`.  `dflt` is the default constructor of
the derived value class.  Mutating operations return (result `Kind`,
mutated self).  `cleared` is a model-level observer meaning "holds no
representation resources"; it is not part of the C++ interface. -/
structure AbstractValueOps (V : Type) where
  dflt : V
  clear : V → V
  cleared : V → Bool
  kind : V → AbstractValueKind
  leq : V → V → Bool
  equals : V → V → Bool
  join_with : V → V → AbstractValueKind × V
  widen_with : V → V → AbstractValueKind × V
  meet_with : V → V → AbstractValueKind × V
  narrow_with : V → V → AbstractValueKind × V

/-- `AbstractDomainScaffolding<Value, Derived>`: the fields `m_kind` and
`m_value`. -/
structure AbstractDomainScaffolding (V : Type) where
  m_kind : AbstractValueKind
  m_value : V
deriving DecidableEq, Repr

namespace AbstractDomainScaffolding

variable {V : Type}

/-- `kind()` accessor. -/
def kind (s : AbstractDomainScaffolding V) : AbstractValueKind := s.m_kind

/-- `is_bottom()`: `m_kind == AbstractValueKind::Bottom`. -/
def is_bottom (s : AbstractDomainScaffolding V) : Bool :=
  s.m_kind == .Bottom

/-- `is_top()`: `m_kind == AbstractValueKind::Top`. -/
def is_top (s : AbstractDomainScaffolding V) : Bool :=
  s.m_kind == .Top

/-- `is_value()`: `m_kind == AbstractValueKind::Value`. -/
def is_value (s : AbstractDomainScaffolding V) : Bool :=
  s.m_kind == .Value

/-- `set_to_bottom()`: set `m_kind` to Bottom and `m_value.clear()`. -/
def set_to_bottom (I : AbstractValueOps V) (s : AbstractDomainScaffolding V) :
    AbstractDomainScaffolding V :=
  { m_kind := .Bottom, m_value := I.clear s.m_value }

/-- `set_to_top()`: set `m_kind` to Top and `m_value.clear()`. -/
def set_to_top (I : AbstractValueOps V) (s : AbstractDomainScaffolding V) :
    AbstractDomainScaffolding V :=
  { m_kind := .Top, m_value := I.clear s.m_value }

/-- `leq(other)` of AbstractDomainScaffolding (lines 318-334). -/
def leq (I : AbstractValueOps V) (s other : AbstractDomainScaffolding V) : Bool :=
  if s.is_bottom then true
  else if other.is_bottom then false
  else if other.is_top then true
  else if s.is_top then false
  else I.leq s.m_value other.m_value

/-- `equals(other)` of AbstractDomainScaffolding (lines 336-338):
`m_kind == other.m_kind && m_value.equals(other.m_value)`. -/
def equals (I : AbstractValueOps V) (s other : AbstractDomainScaffolding V) : Bool :=
  (s.m_kind == other.m_kind) && I.equals s.m_value other.m_value

/-- `join_like_operation_with(other, operation)` (lines 390-405).
`operation` is the lambda capturing `this` and `other`; here it maps the
current self to the mutated self.  Returns (new self, new other); `other`
is const in the C++ and is returned unchanged in every branch. -/
def join_like_operation_with (I : AbstractValueOps V)
    (s other : AbstractDomainScaffolding V)
    (operation : AbstractDomainScaffolding V → AbstractDomainScaffolding V) :
    AbstractDomainScaffolding V × AbstractDomainScaffolding V :=
  if s.is_top || other.is_bottom then (s, other)
  else if other.is_top then (set_to_top I s, other)
  else if s.is_bottom then
    ({ m_kind := other.m_kind, m_value := other.m_value }, other)
  else (operation s, other)

/-- `meet_like_operation_with(other, operation)` (lines 407-422). -/
def meet_like_operation_with (I : AbstractValueOps V)
    (s other : AbstractDomainScaffolding V)
    (operation : AbstractDomainScaffolding V → AbstractDomainScaffolding V) :
    AbstractDomainScaffolding V × AbstractDomainScaffolding V :=
  if s.is_bottom || other.is_top then (s, other)
  else if other.is_bottom then (set_to_bottom I s, other)
  else if s.is_top then
    ({ m_kind := other.m_kind, m_value := other.m_value }, other)
  else (operation s, other)

/-- `join_with(other)`: `join_like_operation_with` with the lambda
`m_kind = m_value.join_with(other.m_value)` (the value is mutated in place
and the returned kind stored in `m_kind`). -/
def join_with (I : AbstractValueOps V) (s other : AbstractDomainScaffolding V) :
    AbstractDomainScaffolding V × AbstractDomainScaffolding V :=
  join_like_operation_with I s other (fun self =>
    let r := I.join_with self.m_value other.m_value
    { m_kind := r.1, m_value := r.2 })

/-- `widen_with(other)`: `join_like_operation_with` with the value-level
widening. -/
def widen_with (I : AbstractValueOps V) (s other : AbstractDomainScaffolding V) :
    AbstractDomainScaffolding V × AbstractDomainScaffolding V :=
  join_like_operation_with I s other (fun self =>
    let r := I.widen_with self.m_value other.m_value
    { m_kind := r.1, m_value := r.2 })

/-- `meet_with(other)`: `meet_like_operation_with` with the value-level
meet. -/
def meet_with (I : AbstractValueOps V) (s other : AbstractDomainScaffolding V) :
    AbstractDomainScaffolding V × AbstractDomainScaffolding V :=
  meet_like_operation_with I s other (fun self =>
    let r := I.meet_with self.m_value other.m_value
    { m_kind := r.1, m_value := r.2 })

/-- `narrow_with(other)`: `meet_like_operation_with` with the value-level
narrowing. -/
def narrow_with (I : AbstractValueOps V) (s other : AbstractDomainScaffolding V) :
    AbstractDomainScaffolding V × AbstractDomainScaffolding V :=
  meet_like_operation_with I s other (fun self =>
    let r := I.narrow_with self.m_value other.m_value
    { m_kind := r.1, m_value := r.2 })

/-- `normalize()` (lines 381-387): `m_kind = m_value.kind()`; if the kind is
Bottom or Top, `m_value.clear()`. -/
def normalize (I : AbstractValueOps V) (s : AbstractDomainScaffolding V) :
    AbstractDomainScaffolding V :=
  let k := I.kind s.m_value
  if k == .Bottom || k == .Top then { m_kind := k, m_value := I.clear s.m_value }
  else { m_kind := k, m_value := s.m_value }

/-- The default constructor (line 289): `m_kind = m_value.kind()` with
`m_value` default-constructed. -/
def mkDefault (I : AbstractValueOps V) : AbstractDomainScaffolding V :=
  { m_kind := I.kind I.dflt, m_value := I.dflt }

/-- The convenience constructor from a Kind (lines 294-296).  The
`always_assert(kind != AbstractValueKind::Value)` aborts on `Value`,
modelled as `none`; otherwise the kind is stored and `m_value` is left
default-constructed. -/
def fromKind (I : AbstractValueOps V) (k : AbstractValueKind) :
    Option (AbstractDomainScaffolding V) :=
  if k == .Value then none
  else some { m_kind := k, m_value := I.dflt }

/-- `Derived::bottom()` as required of derived classes: the element built by
the Kind constructor on Bottom (the assertion passes). -/
def bottom (I : AbstractValueOps V) : AbstractDomainScaffolding V :=
  { m_kind := .Bottom, m_value := I.dflt }

/-- `Derived::top()` as required of derived classes: the element built by
the Kind constructor on Top (the assertion passes). -/
def top (I : AbstractValueOps V) : AbstractDomainScaffolding V :=
  { m_kind := .Top, m_value := I.dflt }

/-- `AbstractDomain::join` (lines 138-144): copy the receiver, run
`join_with` on the copy, return the copy. -/
def join (I : AbstractValueOps V) (s other : AbstractDomainScaffolding V) :
    AbstractDomainScaffolding V :=
  let tmp := s
  (join_with I tmp other).1

/-- `AbstractDomain::widening` (lines 146-150): copy then `widen_with`. -/
def widening (I : AbstractValueOps V) (s other : AbstractDomainScaffolding V) :
    AbstractDomainScaffolding V :=
  let tmp := s
  (widen_with I tmp other).1

/-- `AbstractDomain::meet` (lines 152-156): copy then `meet_with`. -/
def meet (I : AbstractValueOps V) (s other : AbstractDomainScaffolding V) :
    AbstractDomainScaffolding V :=
  let tmp := s
  (meet_with I tmp other).1

/-- `AbstractDomain::narrowing` (lines 158-162): copy then `narrow_with`. -/
def narrowing (I : AbstractValueOps V) (s other : AbstractDomainScaffolding V) :
    AbstractDomainScaffolding V :=
  let tmp := s
  (narrow_with I tmp other).1

end AbstractDomainScaffolding

/-- A concrete `AbstractValue` implementation used to exercise the
scaffolding: the flat constants value over `Nat`.  A representation is a
single constant and never denotes an extremum by itself; `0` doubles as
the default-constructed/cleared state.  Join of two distinct constants
collapses to Top and meet to Bottom, and in both cases the old
representation is left in place, which the `AbstractValue` contract
permits (the comment on `clear()` says extremal results may still hold
representation resources). -/
def constOps : AbstractValueOps Nat where
  dflt := 0
  clear _ := 0
  cleared v := v == 0
  kind _ := .Value
  leq a b := a == b
  equals a b := a == b
  join_with a b := if a == b then (.Value, a) else (.Top, a)
  widen_with a b := if a == b then (.Value, a) else (.Top, a)
  meet_with a b := if a == b then (.Value, a) else (.Bottom, a)
  narrow_with a b := if a == b then (.Value, a) else (.Bottom, a)

/-- A concrete `AbstractValue` implementation whose representation can
itself denote the extrema, like the interval `[-oo, +oo]` mentioned in the
header comment of `kind()`: the representation `7` denotes Bottom and `9`
denotes Top; everything else is a regular value. -/
def flagOps : AbstractValueOps Nat where
  dflt := 0
  clear _ := 0
  cleared v := v == 0
  kind v := if v == 7 then .Bottom else if v == 9 then .Top else .Value
  leq a b := a == b
  equals a b := a == b
  join_with a b := if a == b then (.Value, a) else (.Top, a)
  widen_with a b := if a == b then (.Value, a) else (.Top, a)
  meet_with a b := if a == b then (.Value, a) else (.Bottom, a)
  narrow_with a b := if a == b then (.Value, a) else (.Bottom, a)

/-!
Liveness fixpoint scenario of `MonotonicFixpointTest.cpp`.

`MonotonicFixpointIterator` and `HashedSetAbstractDomain` are not under
src/ (only the test that uses them is), and neither is the bytecode of
`function_1`; they are modelled from the spec below.
-/

/-- Modelled from the spec: `HashedSetAbstractDomain<std::string>`
restricted to the registers of scenario A.  The test only ever mentions
the registers v0, v1 and v2, so a liveness state is the set of live
registers among those three. -/
structure RegSet where
  v0 : Bool
  v1 : Bool
  v2 : Bool
deriving DecidableEq, Repr

/-- The empty register set: `LivenessDomain()` default-constructs to the
empty set, which is also the Bottom seed of the analysis. -/
def RegSet.empty : RegSet := ⟨false, false, false⟩

/-- Set union: the join of the powerset domain. -/
def RegSet.union (a b : RegSet) : RegSet :=
  ⟨a.v0 || b.v0, a.v1 || b.v1, a.v2 || b.v2⟩

/-- Join of a list of states, starting from the empty set (Bottom). -/
def joinList (l : List RegSet) : RegSet :=
  l.foldl RegSet.union RegSet.empty

/-- Modelled from the spec: the control-flow graph of scenario A, "block 0
→ block 1 → block 2 (exit)" with the loop on block 1 implied by the
fixpoint (live-in of block 1 equals its live-out).  These are the
predecessors in the direction of the analysis: the test passes the
accessors swapped, so the analysis predecessors of a block are its CFG
successors. -/
def analysisPreds : Fin 3 → List (Fin 3)
  | 0 => [1]
  | 1 => [1, 2]
  | 2 => []

/-- Modelled from the spec: the per-block backward liveness transfer of
`function_1`, whose bytecode is not under src.  Block b is summarized by
the rule live-in = use(b) ∪ (live-out \ def(b)) obtained by running the
test's `analyze_instruction` over the block in reverse: block 0 defines
v0 and v2 and uses nothing; block 1 has upward-exposed uses {v0, v2} and
defines v0 and v1; block 2 uses v2 and defines nothing.  This is the
unique block-summary pattern consistent with scenario A's expected
results. -/
def blockTransfer : Fin 3 → RegSet → RegSet
  | 0, s => ⟨false, s.v1, false⟩
  | 1, _ => ⟨true, false, true⟩
  | 2, s => ⟨s.v0, s.v1, true⟩

/-- The analysis state owned by the iterator: an entry and an exit state
per block (in the analysis direction, i.e. after swapping). -/
structure LivenessStates where
  entry0 : RegSet
  entry1 : RegSet
  entry2 : RegSet
  exit0 : RegSet
  exit1 : RegSet
  exit2 : RegSet
deriving DecidableEq, Repr

/-- `get_entry_state_at`. -/
def LivenessStates.entryAt (st : LivenessStates) : Fin 3 → RegSet
  | 0 => st.entry0
  | 1 => st.entry1
  | 2 => st.entry2

/-- `get_exit_state_at`. -/
def LivenessStates.exitAt (st : LivenessStates) : Fin 3 → RegSet
  | 0 => st.exit0
  | 1 => st.exit1
  | 2 => st.exit2

/-- The seed passed to `run`: `LivenessDomain()`, the empty set. -/
def livenessSeed : RegSet := RegSet.empty

/-- Modelled from the spec: one simultaneous application of the fixpoint
equations of the monotonic fixpoint iterator, whose implementation
(`FixpointIterators.h`) is not under src.  Per the spec, for every node n,
entry(n) = ⊔ analyze_edge(p, n, exit(p)) over the analysis predecessors p
of n (analyze_edge is the identity in the test), with entry(root = block 2)
additionally joined with the seed, and exit(n) = analyze_node(n, entry(n)).
Iterating this from Bottom computes the least fixpoint the worklist/WTO
solver converges to. -/
def livenessStep (st : LivenessStates) : LivenessStates :=
  let ent : Fin 3 → RegSet := fun n =>
    let fromPreds := joinList ((analysisPreds n).map st.exitAt)
    if n = 2 then RegSet.union fromPreds livenessSeed else fromPreds
  let ex : Fin 3 → RegSet := fun n => blockTransfer n (ent n)
  ⟨ent 0, ent 1, ent 2, ex 0, ex 1, ex 2⟩

/-- The initial analysis state: every entry and exit state is Bottom. -/
def livenessInit : LivenessStates :=
  ⟨RegSet.empty, RegSet.empty, RegSet.empty,
   RegSet.empty, RegSet.empty, RegSet.empty⟩

/-- The solver's result: Kleene iteration from Bottom, which has
stabilized after four steps (the final theorem checks stability). -/
def livenessResult : LivenessStates :=
  livenessStep (livenessStep (livenessStep (livenessStep livenessInit)))

/-- `get_live_in_vars_at`: the live-in set of a block is the exit state at
that block (the analysis ran on the reversed graph). -/
def get_live_in_vars_at (st : LivenessStates) (b : Fin 3) : RegSet :=
  st.exitAt b

/-- `get_live_out_vars_at`: the live-out set of a block is the entry state
at that block. -/
def get_live_out_vars_at (st : LivenessStates) (b : Fin 3) : RegSet :=
  st.entryAt b

namespace AbstractDomainScaffolding

variable {V : Type}

/-- Helper: `join_like_operation_with` returns its `other` argument
unchanged in every branch (it is taken by const reference). -/
theorem join_like_snd_eq (I : AbstractValueOps V)
    (s other : AbstractDomainScaffolding V)
    (op : AbstractDomainScaffolding V → AbstractDomainScaffolding V) :
    (join_like_operation_with I s other op).2 = other := by
  unfold join_like_operation_with
  split
  · rfl
  · split
    · rfl
    · split
      · rfl
      · rfl

/-- Helper: `meet_like_operation_with` returns its `other` argument
unchanged in every branch. -/
theorem meet_like_snd_eq (I : AbstractValueOps V)
    (s other : AbstractDomainScaffolding V)
    (op : AbstractDomainScaffolding V → AbstractDomainScaffolding V) :
    (meet_like_operation_with I s other op).2 = other := by
  unfold meet_like_operation_with
  split
  · rfl
  · split
    · rfl
    · split
      · rfl
      · rfl

/-- C1: counterexample.  Meeting the two Value-kind elements (Value, 1)
and (Value, 2) of the flat constants domain makes the value-level meet
return Bottom; the scaffolding records the Bottom kind but the underlying
value still holds its old representation 1, which is not the cleared
state. -/
theorem C1_counterexample :
    ((meet_with constOps ⟨.Value, 1⟩ ⟨.Value, 2⟩).1.m_kind = .Bottom)
  ∧ (constOps.cleared (meet_with constOps ⟨.Value, 1⟩ ⟨.Value, 2⟩).1.m_value
       = false)
  ∧ ((meet_with constOps ⟨.Value, 1⟩ ⟨.Value, 2⟩).1.m_value = 1) := by
  decide

/-- C1: amended.  `set_to_bottom`, `set_to_top`, `normalize` and both
constructors leave the value cleared whenever the resulting kind is
extremal (assuming `clear` establishes clearedness and the
default-constructed value is cleared); but when the value-level operation
runs on two Value-kind elements and returns an extremal kind, the
scaffolding records that kind while keeping exactly the value the
value-level operation left, without clearing it. -/
theorem C1_amended_clearing (I : AbstractValueOps V)
    (hclear : ∀ v, I.cleared (I.clear v) = true)
    (hdflt : I.cleared I.dflt = true)
    (s other : AbstractDomainScaffolding V) :
    (I.cleared (set_to_bottom I s).m_value = true)
  ∧ (I.cleared (set_to_top I s).m_value = true)
  ∧ (I.kind s.m_value = .Bottom ∨ I.kind s.m_value = .Top →
      I.cleared (normalize I s).m_value = true)
  ∧ (∀ k r, fromKind I k = some r → I.cleared r.m_value = true)
  ∧ (I.cleared (mkDefault I).m_value = true)
  ∧ (s.m_kind = .Value → other.m_kind = .Value →
      (join_with I s other).1
          = { m_kind := (I.join_with s.m_value other.m_value).1,
              m_value := (I.join_with s.m_value other.m_value).2 }
    ∧ (widen_with I s other).1
          = { m_kind := (I.widen_with s.m_value other.m_value).1,
              m_value := (I.widen_with s.m_value other.m_value).2 }
    ∧ (meet_with I s other).1
          = { m_kind := (I.meet_with s.m_value other.m_value).1,
              m_value := (I.meet_with s.m_value other.m_value).2 }
    ∧ (narrow_with I s other).1
          = { m_kind := (I.narrow_with s.m_value other.m_value).1,
              m_value := (I.narrow_with s.m_value other.m_value).2 }) := by
  refine ⟨hclear _, hclear _, ?_, ?_, hdflt, ?_⟩
  · intro h
    unfold normalize
    rcases h with h | h <;> simp [h] <;> exact hclear _
  · intro k r h
    cases k <;> simp [fromKind] at h <;> rw [← h] <;> exact hdflt
  · intro h1 h2
    refine ⟨?_, ?_, ?_, ?_⟩
    · unfold join_with join_like_operation_with is_top is_bottom
      simp [h1, h2]
    · unfold widen_with join_like_operation_with is_top is_bottom
      simp [h1, h2]
    · unfold meet_with meet_like_operation_with is_top is_bottom
      simp [h1, h2]
    · unfold narrow_with meet_like_operation_with is_top is_bottom
      simp [h1, h2]

/-- C1: witness for the amended theorem, on the flat constants
implementation: `set_to_bottom` clears the value of (Value, 5), while
widening, meeting and narrowing (Value, 1) with (Value, 2) collapse to an
extremal kind and keep the residual value 1 returned by the value-level
operation. -/
theorem C1_amended_witness :
    (constOps.cleared (set_to_bottom constOps ⟨.Value, 5⟩).m_value = true)
  ∧ ((widen_with constOps ⟨.Value, 1⟩ ⟨.Value, 2⟩).1
       = { m_kind := .Top, m_value := 1 })
  ∧ ((meet_with constOps ⟨.Value, 1⟩ ⟨.Value, 2⟩).1
       = { m_kind := .Bottom, m_value := 1 })
  ∧ ((narrow_with constOps ⟨.Value, 1⟩ ⟨.Value, 2⟩).1
       = { m_kind := .Bottom, m_value := 1 }) := by
  have h := C1_amended_clearing constOps (fun _ => rfl) rfl
    ⟨.Value, 1⟩ ⟨.Value, 2⟩
  have hv := h.2.2.2.2.2 rfl rfl
  refine ⟨?_, ?_, ?_, ?_⟩
  · exact (C1_amended_clearing constOps (fun _ => rfl) rfl
      ⟨.Value, 5⟩ ⟨.Value, 5⟩).1
  · rw [hv.2.1]
    decide
  · rw [hv.2.2.1]
    decide
  · rw [hv.2.2.2]
    decide

/-- C2: counterexample.  The two elements obtained by meeting (Value, 1)
with (Value, 2) and (Value, 2) with (Value, 1) in the flat constants
domain are both Bottom, so they are mutually `leq`; but `equals` compares
the residual values 1 and 2 and answers false, refuting
`a.equals(b) ⇔ a.leq(b) ∧ b.leq(a)`. -/
theorem C2_counterexample :
    (leq constOps (meet_with constOps ⟨.Value, 1⟩ ⟨.Value, 2⟩).1
        (meet_with constOps ⟨.Value, 2⟩ ⟨.Value, 1⟩).1 = true)
  ∧ (leq constOps (meet_with constOps ⟨.Value, 2⟩ ⟨.Value, 1⟩).1
        (meet_with constOps ⟨.Value, 1⟩ ⟨.Value, 2⟩).1 = true)
  ∧ (equals constOps (meet_with constOps ⟨.Value, 1⟩ ⟨.Value, 2⟩).1
        (meet_with constOps ⟨.Value, 2⟩ ⟨.Value, 1⟩).1 = false) := by
  decide

/-- C2: amended.  `equals` always implies mutual `leq` (assuming the
value-level equals implies mutual value-level leq), and for two
Value-kind elements the full equivalence holds (assuming value-level
mutual leq implies equals); the right-to-left direction can fail when the
two elements share an extremal kind but hold different residual value
representations. -/
theorem C2_amended_equals_mutual_leq (I : AbstractValueOps V)
    (heq : ∀ v w, I.equals v w = true → I.leq v w = true ∧ I.leq w v = true)
    (hle : ∀ v w, I.leq v w = true → I.leq w v = true → I.equals v w = true)
    (a b : AbstractDomainScaffolding V) :
    (equals I a b = true → leq I a b = true ∧ leq I b a = true)
  ∧ (a.m_kind = .Value → b.m_kind = .Value →
      (equals I a b = true ↔ leq I a b = true ∧ leq I b a = true)) := by
  obtain ⟨ak, av⟩ := a
  obtain ⟨bk, bv⟩ := b
  constructor
  · intro h
    unfold equals at h
    simp only [Bool.and_eq_true, beq_iff_eq] at h
    obtain ⟨hk, hv⟩ := h
    cases ak <;> cases bk <;> simp_all [leq, is_bottom, is_top]
  · intro h1 h2
    simp only at h1 h2
    subst h1
    subst h2
    unfold equals leq is_bottom is_top
    simp only [beq_self_eq_true, Bool.true_and]
    constructor
    · intro h
      exact ⟨(heq _ _ h).1, (heq _ _ h).2⟩
    · intro h
      exact hle _ _ h.1 h.2

/-- C2: witness for the amended theorem, on the flat constants
implementation at two equal Value-kind elements. -/
theorem C2_amended_witness :
    (equals constOps ⟨.Value, 3⟩ ⟨.Value, 3⟩ = true →
      leq constOps ⟨.Value, 3⟩ ⟨.Value, 3⟩ = true
        ∧ leq constOps ⟨.Value, 3⟩ ⟨.Value, 3⟩ = true)
  ∧ (equals constOps ⟨.Value, 3⟩ ⟨.Value, 3⟩ = true
      ↔ leq constOps ⟨.Value, 3⟩ ⟨.Value, 3⟩ = true
        ∧ leq constOps ⟨.Value, 3⟩ ⟨.Value, 3⟩ = true) := by
  have h := C2_amended_equals_mutual_leq constOps
    (fun v w hvw => by
      simp only [constOps] at hvw ⊢
      simp only [beq_iff_eq] at hvw
      subst hvw
      exact ⟨by simp, by simp⟩)
    (fun v w hvw _ => by
      simp only [constOps] at hvw ⊢
      exact hvw)
    ⟨.Value, 3⟩ ⟨.Value, 3⟩
  exact ⟨h.1, h.2 rfl rfl⟩

/-- C3: the join-like case table of `join_with` and `widen_with`: Top self
or Bottom other leaves self (and other) unchanged; a Top other sets self
to Top; a Bottom self copies other's kind and value into self; two
Value-kind elements run the value-level operation, whose returned kind
becomes self's kind; `join_with(bottom())` is a no-op and
`join_with(top())` makes the element Top. -/
theorem C3_join_case_table (I : AbstractValueOps V)
    (s other : AbstractDomainScaffolding V) :
    (s.m_kind = .Top ∨ other.m_kind = .Bottom →
      join_with I s other = (s, other) ∧ widen_with I s other = (s, other))
  ∧ (s.m_kind ≠ .Top → other.m_kind ≠ .Bottom → other.m_kind = .Top →
      join_with I s other = (set_to_top I s, other)
        ∧ widen_with I s other = (set_to_top I s, other))
  ∧ (s.m_kind = .Bottom → other.m_kind ≠ .Bottom → other.m_kind ≠ .Top →
      join_with I s other = (other, other)
        ∧ widen_with I s other = (other, other))
  ∧ (s.m_kind = .Value → other.m_kind = .Value →
      join_with I s other
          = ({ m_kind := (I.join_with s.m_value other.m_value).1,
               m_value := (I.join_with s.m_value other.m_value).2 }, other)
        ∧ widen_with I s other
          = ({ m_kind := (I.widen_with s.m_value other.m_value).1,
               m_value := (I.widen_with s.m_value other.m_value).2 }, other))
  ∧ (join_with I s (bottom I)).1 = s
  ∧ (join_with I s (top I)).1.m_kind = .Top := by
  obtain ⟨sk, sv⟩ := s
  obtain ⟨ok, ov⟩ := other
  cases sk <;> cases ok <;>
    simp [join_with, widen_with, join_like_operation_with, set_to_top,
          is_top, is_bottom, bottom, top]

/-- C3: witness.  Joining the Bottom element with a Value-kind element
copies the latter, per the case table. -/
theorem C3_witness :
    join_with constOps ⟨.Bottom, 0⟩ ⟨.Value, 5⟩ = (⟨.Value, 5⟩, ⟨.Value, 5⟩) := by
  have h := C3_join_case_table constOps ⟨.Bottom, 0⟩ ⟨.Value, 5⟩
  exact (h.2.2.1 rfl (by decide) (by decide)).1

/-- C4: the meet-like case table of `meet_with` and `narrow_with`, the
exact dual of the join-like one: Bottom self or Top other leaves self
(and other) unchanged; a Bottom other sets self to Bottom; a Top self
copies other's kind and value into self; two Value-kind elements run the
value-level operation, whose returned kind becomes self's kind. -/
theorem C4_meet_case_table (I : AbstractValueOps V)
    (s other : AbstractDomainScaffolding V) :
    (s.m_kind = .Bottom ∨ other.m_kind = .Top →
      meet_with I s other = (s, other) ∧ narrow_with I s other = (s, other))
  ∧ (s.m_kind ≠ .Bottom → other.m_kind ≠ .Top → other.m_kind = .Bottom →
      meet_with I s other = (set_to_bottom I s, other)
        ∧ narrow_with I s other = (set_to_bottom I s, other))
  ∧ (s.m_kind = .Top → other.m_kind ≠ .Top → other.m_kind ≠ .Bottom →
      meet_with I s other = (other, other)
        ∧ narrow_with I s other = (other, other))
  ∧ (s.m_kind = .Value → other.m_kind = .Value →
      meet_with I s other
          = ({ m_kind := (I.meet_with s.m_value other.m_value).1,
               m_value := (I.meet_with s.m_value other.m_value).2 }, other)
        ∧ narrow_with I s other
          = ({ m_kind := (I.narrow_with s.m_value other.m_value).1,
               m_value := (I.narrow_with s.m_value other.m_value).2 }, other))
  ∧ (meet_with I s (top I)).1 = s
  ∧ (meet_with I s (bottom I)).1.m_kind = .Bottom := by
  obtain ⟨sk, sv⟩ := s
  obtain ⟨ok, ov⟩ := other
  cases sk <;> cases ok <;>
    simp [meet_with, narrow_with, meet_like_operation_with, set_to_bottom,
          is_top, is_bottom, bottom, top]

/-- C4: witness.  Meeting the Top element with a Value-kind element copies
the latter, per the dual case table. -/
theorem C4_witness :
    meet_with constOps ⟨.Top, 0⟩ ⟨.Value, 5⟩ = (⟨.Value, 5⟩, ⟨.Value, 5⟩) := by
  have h := C4_meet_case_table constOps ⟨.Top, 0⟩ ⟨.Value, 5⟩
  exact (h.2.2.1 rfl (by decide) (by decide)).1

/-- C5: the functional operations `join`, `widening`, `meet` and
`narrowing` are copy-then-mutate: each equals the in-place operation
applied to a copy of the receiver, and the argument comes out of the
in-place operation unchanged (in the explicit-state embedding, the
receiver copy is the returned element, so both operands of the functional
call are untouched). -/
theorem C5_functional_ops (I : AbstractValueOps V)
    (a b : AbstractDomainScaffolding V) :
    (join I a b = (join_with I a b).1 ∧ (join_with I a b).2 = b)
  ∧ (widening I a b = (widen_with I a b).1 ∧ (widen_with I a b).2 = b)
  ∧ (meet I a b = (meet_with I a b).1 ∧ (meet_with I a b).2 = b)
  ∧ (narrowing I a b = (narrow_with I a b).1 ∧ (narrow_with I a b).2 = b) :=
  ⟨⟨rfl, join_like_snd_eq I a b _⟩,
   ⟨rfl, join_like_snd_eq I a b _⟩,
   ⟨rfl, meet_like_snd_eq I a b _⟩,
   ⟨rfl, meet_like_snd_eq I a b _⟩⟩

/-- C6: the `leq` rules.  `bottom()` is below everything and everything is
below `top()`; a Bottom element is below anything, anything is below a Top
element, a non-Bottom element is never below a Bottom one, a Top element
is never below a non-Top one, and two Value-kind elements are compared by
the value-level `leq`. -/
theorem C6_leq_rules (I : AbstractValueOps V)
    (a b : AbstractDomainScaffolding V) :
    (leq I (bottom I) a = true)
  ∧ (leq I a (top I) = true)
  ∧ (a.m_kind = .Bottom → leq I a b = true)
  ∧ (b.m_kind = .Top → leq I a b = true)
  ∧ (a.m_kind ≠ .Bottom → b.m_kind = .Bottom → leq I a b = false)
  ∧ (a.m_kind = .Top → b.m_kind ≠ .Top → leq I a b = false)
  ∧ (a.m_kind = .Value → b.m_kind = .Value →
      leq I a b = I.leq a.m_value b.m_value) := by
  obtain ⟨ak, av⟩ := a
  obtain ⟨bk, bv⟩ := b
  cases ak <;> cases bk <;>
    simp [leq, is_top, is_bottom, bottom, top]

/-- C6: witness.  On the flat constants implementation, the generic rules
give `bottom ≤ (Value, 4)`, `(Value, 4) ≤ top`, and the Value-Value
comparison delegates to the value-level `leq`. -/
theorem C6_witness :
    (leq constOps (bottom constOps) ⟨.Value, 4⟩ = true)
  ∧ (leq constOps ⟨.Value, 4⟩ (top constOps) = true)
  ∧ (leq constOps ⟨.Value, 4⟩ ⟨.Value, 6⟩ = constOps.leq 4 6) := by
  have h := C6_leq_rules constOps (⟨.Value, 4⟩ : AbstractDomainScaffolding Nat)
    ⟨.Value, 6⟩
  exact ⟨(C6_leq_rules constOps ⟨.Value, 4⟩ ⟨.Value, 6⟩).1, h.2.1,
    h.2.2.2.2.2.2 rfl rfl⟩

/-- C7: `normalize()` sets the kind to `value.kind()`; when that kind is
Bottom or Top the value is additionally cleared, and when it is Value the
value is left untouched. -/
theorem C7_normalize (I : AbstractValueOps V)
    (s : AbstractDomainScaffolding V) :
    ((normalize I s).m_kind = I.kind s.m_value)
  ∧ (I.kind s.m_value = .Bottom ∨ I.kind s.m_value = .Top →
      (normalize I s).m_value = I.clear s.m_value)
  ∧ (I.kind s.m_value = .Value → (normalize I s).m_value = s.m_value) := by
  unfold normalize
  rcases h : I.kind s.m_value with _ | _ | _ <;> simp [h]

/-- C7: witness.  On the implementation whose representation 7 denotes
Bottom, normalizing (Value, 7) yields kind Bottom with a cleared value,
and normalizing (Value, 3), a regular value, keeps the value 3. -/
theorem C7_witness :
    ((normalize flagOps ⟨.Value, 7⟩).m_kind = .Bottom)
  ∧ ((normalize flagOps ⟨.Value, 7⟩).m_value = flagOps.clear 7)
  ∧ ((normalize flagOps ⟨.Value, 3⟩).m_value = 3) := by
  have h7 := C7_normalize flagOps (⟨.Value, 7⟩ : AbstractDomainScaffolding Nat)
  have h3 := C7_normalize flagOps (⟨.Value, 3⟩ : AbstractDomainScaffolding Nat)
  exact ⟨h7.1, h7.2.1 (Or.inl rfl), h3.2.2 rfl⟩

/-- C8: the Kind constructor asserts `kind != Value` (passing Value
aborts, modelled as `none`); under the precondition it succeeds and
builds an element whose kind is the given one and whose value is the
default-constructed, cleared state. -/
theorem C8_kind_constructor (I : AbstractValueOps V)
    (hdflt : I.cleared I.dflt = true) (k : AbstractValueKind) :
    (fromKind I k = none ↔ k = .Value)
  ∧ (∀ r, fromKind I k = some r →
      r.m_kind = k ∧ r.m_value = I.dflt ∧ I.cleared r.m_value = true)
  ∧ (k = .Bottom → fromKind I k = some (bottom I))
  ∧ (k = .Top → fromKind I k = some (top I)) := by
  refine ⟨?_, ?_, ?_, ?_⟩
  · cases k <;> simp [fromKind]
  · intro r h
    cases k <;> simp [fromKind] at h <;> rw [← h] <;> exact ⟨rfl, rfl, hdflt⟩
  · intro h
    subst h
    rfl
  · intro h
    subst h
    rfl

/-- C8: witness.  On the flat constants implementation, constructing from
Bottom succeeds with a cleared default value, and constructing from Value
fails the assertion. -/
theorem C8_witness :
    (fromKind constOps .Bottom = some (bottom constOps))
  ∧ (fromKind constOps .Value = none)
  ∧ (∀ r, fromKind constOps .Bottom = some r →
      r.m_kind = .Bottom ∧ r.m_value = constOps.dflt
        ∧ constOps.cleared r.m_value = true) := by
  have hb := C8_kind_constructor constOps rfl .Bottom
  have hv := C8_kind_constructor constOps rfl .Value
  exact ⟨hb.2.2.1 rfl, hv.1.2 rfl, hb.2.1⟩

/-- C10: every in-place binary lattice operation of the scaffolding takes
`other` by const reference and leaves it unchanged: the `other` component
of the explicit-state result equals the argument for all four
operations. -/
theorem C10_other_unchanged (I : AbstractValueOps V)
    (a b : AbstractDomainScaffolding V) :
    ((join_with I a b).2 = b)
  ∧ ((widen_with I a b).2 = b)
  ∧ ((meet_with I a b).2 = b)
  ∧ ((narrow_with I a b).2 = b) :=
  ⟨join_like_snd_eq I a b _, join_like_snd_eq I a b _,
   meet_like_snd_eq I a b _, meet_like_snd_eq I a b _⟩

end AbstractDomainScaffolding

/-- C9: running the modelled monotonic fixpoint iterator for liveness on
the three-block graph, rooted at block 2 with the accessors swapped,
stabilizes and yields exactly: block 0 has live-in ∅ and live-out
{v0, v2}; block 1 has live-in = live-out = {v0, v2}; block 2 has live-in
{v2} and live-out ∅. -/
theorem C9_liveness_scenario :
    (get_live_in_vars_at livenessResult 0 = RegSet.empty
      ∧ get_live_out_vars_at livenessResult 0 = ⟨true, false, true⟩)
  ∧ (get_live_in_vars_at livenessResult 1 = ⟨true, false, true⟩
      ∧ get_live_out_vars_at livenessResult 1 = ⟨true, false, true⟩)
  ∧ (get_live_in_vars_at livenessResult 2 = ⟨false, false, true⟩
      ∧ get_live_out_vars_at livenessResult 2 = RegSet.empty)
  ∧ livenessStep livenessResult = livenessResult := by
  decide

end Redex
